import Mathlib

/-!
Formal model of the cow-monitoring backend (FastAPI + SQLAlchemy service):
the relational data model (app/models.py), the measurement validation rules
and boundary behavior of the measurement endpoint (app/routes/measurements.py,
app/schemas.py), the latest-measurement-per-unit resolver (app/routes/cows.py),
and the two analytical SQL reports (app/routes/reports.py).

Conventions of the embedding:
* float columns (measurement timestamps and values) are embedded as rationals;
* calendar dates are embedded as days since 1970-01-01 (an Int); a DATE used
  as a timestamp bound denotes midnight UTC of that day, as in the SQL
  comparisons of the report queries;
* fallible handlers return Except ApiError;
* where a SQL ORDER BY leaves the relative order of tied rows unspecified,
  the embedding makes the deterministic choice of keeping the earliest row.
-/

/-- A row of the cows table (app/models.py, class Cow). The server-assigned
created_at column is not used by any verified logic and is omitted. -/
structure Cow where
  id : String
  name : String
  birthdate : Int
deriving DecidableEq

/-- A row of the sensors table (app/models.py, class Sensor). -/
structure Sensor where
  id : String
  unit : String
deriving DecidableEq

/-- A row of the measurements table (app/models.py, class Measurement):
timestamp is a float column holding epoch seconds, value is nullable,
is_valid and validation_error are computed at creation time. -/
structure Measurement where
  id : Int
  sensor_id : String
  cow_id : String
  timestamp : ℚ
  value : Option ℚ
  is_valid : Bool
  validation_error : Option String
deriving DecidableEq

/-- The relational store: the three tables. -/
structure DB where
  cows : List Cow
  sensors : List Sensor
  measurements : List Measurement
deriving DecidableEq

/-- Error taxonomy of the API boundary: 404, 400 (including request-body
schema validation failures) and 409 responses. -/
inductive ApiError where
  | notFound (detail : String)
  | badRequest (detail : String)
  | conflict (detail : String)
deriving DecidableEq

/-- Rendering of a numeric value the way the f-string in create_measurement
prints a Python float: an integral value prints with a trailing ".0"
(so -1 prints as "-1.0" and 0 as "0.0").  Non-integral rationals are printed
as numerator/denominator; the exact shortest-decimal form Python would choose
for a non-integral binary float is not observable in any verified statement. -/
def pyFloatRepr (v : ℚ) : String :=
  if v.den = 1 then toString v.num ++ ".0"
  else toString v.num ++ "/" ++ toString v.den

/-- Validation of a measurement value against its sensor unit, translated from
the block of create_measurement (app/routes/measurements.py) that computes
is_valid and validation_error.  Returns the pair (is_valid, validation_error). -/
def classify (value : Option ℚ) (unit : String) : Bool × Option String :=
  match value with
  | none => (false, some "value is null")
  | some v =>
    if unit = "L" ∨ unit = "kg" then
      if v ≤ 0 then (false, some ("value is " ++ pyFloatRepr v))
      else (true, none)
    else (true, none)

/-- Model of datetime.fromtimestamp(ts, tz=utc): succeeds exactly when the
epoch-seconds value lies inside the representable datetime range
(years 1 through 9999); outside it the call raises, which create_measurement
turns into a 400 response. -/
def fromtimestamp (ts : ℚ) : Option ℚ :=
  if -62135596800 ≤ ts ∧ ts ≤ 253402300799 then some ts else none

/-- Request body of POST /measurements (app/schemas.py, MeasurementCreate). -/
structure MeasurementCreate where
  sensor_id : String
  cow_id : String
  timestamp : ℚ
  value : Option ℚ
deriving DecidableEq

/-- Pydantic field constraints of MeasurementBase (app/schemas.py): sensor_id
and cow_id must have length exactly 36 (min_length=36, max_length=36) and the
timestamp must be strictly positive (gt=0). -/
def MeasurementCreate.schemaValid (r : MeasurementCreate) : Prop :=
  r.sensor_id.length = 36 ∧ r.cow_id.length = 36 ∧ 0 < r.timestamp

instance (r : MeasurementCreate) : Decidable r.schemaValid := by
  unfold MeasurementCreate.schemaValid
  infer_instance

/-- Request body of POST /cows (app/schemas.py, CowCreate): a name of length
1 to 255 and a birthdate.  The cow id is a path parameter, not a body field,
and carries no length constraint. -/
structure CowCreate where
  name : String
  birthdate : Int
deriving DecidableEq

/-- Pydantic field constraints of CowBase (app/schemas.py). -/
def CowCreate.schemaValid (c : CowCreate) : Prop :=
  1 ≤ c.name.length ∧ c.name.length ≤ 255

instance (c : CowCreate) : Decidable c.schemaValid := by
  unfold CowCreate.schemaValid
  infer_instance

/-- Request body of POST /sensors (app/schemas.py, SensorCreate): a unit of
length 1 to 10.  The sensor id is an unconstrained path parameter. -/
structure SensorCreate where
  unit : String
deriving DecidableEq

/-- Pydantic field constraints of SensorBase (app/schemas.py). -/
def SensorCreate.schemaValid (s : SensorCreate) : Prop :=
  1 ≤ s.unit.length ∧ s.unit.length ≤ 10

instance (s : SensorCreate) : Decidable s.schemaValid := by
  unfold SensorCreate.schemaValid
  infer_instance

/-- Primary key assigned to the next measurement row (autoincrement column). -/
def next_measurement_id (db : DB) : Int :=
  (db.measurements.map Measurement.id).foldr max 0 + 1

/-- Handler of POST /measurements after request-body validation
(create_measurement in app/routes/measurements.py): checks that the sensor
and the cow exist, converts the timestamp, classifies the value against the
sensor unit, and persists the measurement whether or not it is valid. -/
def create_measurement (db : DB) (measurement : MeasurementCreate) :
    Except ApiError (DB × Measurement) :=
  match db.sensors.find? (fun s => s.id == measurement.sensor_id) with
  | none => Except.error (ApiError.notFound
      ("Sensor with id " ++ measurement.sensor_id ++ " not found"))
  | some sensor =>
    match db.cows.find? (fun c => c.id == measurement.cow_id) with
    | none => Except.error (ApiError.notFound
        ("Cow with id " ++ measurement.cow_id ++ " not found"))
    | some _ =>
      match fromtimestamp measurement.timestamp with
      | none => Except.error (ApiError.badRequest "Invalid timestamp")
      | some ts =>
        let cls := classify measurement.value sensor.unit
        let m : Measurement :=
          { id := next_measurement_id db
            sensor_id := measurement.sensor_id
            cow_id := measurement.cow_id
            timestamp := ts
            value := measurement.value
            is_valid := cls.1
            validation_error := cls.2 }
        Except.ok ({ db with measurements := db.measurements ++ [m] }, m)

/-- Full boundary behavior of POST /measurements: the framework first
validates the body against the MeasurementCreate schema; a schema violation
is rejected before the handler runs (a 4xx validation failure, BadRequest in
the error taxonomy of the service), so the database is untouched. -/
def post_measurement (db : DB) (r : MeasurementCreate) :
    Except ApiError (DB × Measurement) :=
  if r.schemaValid then create_measurement db r
  else Except.error (ApiError.badRequest "request body failed schema validation")

/-- Handler of POST /cows (create_cow in app/routes/cows.py), including the
schema gate on the body: the id is a path parameter accepted as-is; creating
an id that already exists is a 409 conflict. -/
def create_cow (db : DB) (cow_id : String) (cow : CowCreate) :
    Except ApiError (DB × Cow) :=
  if cow.schemaValid then
    match db.cows.find? (fun c => c.id == cow_id) with
    | some _ => Except.error (ApiError.conflict
        ("Cow with id " ++ cow_id ++ " already exists"))
    | none =>
      let c : Cow := { id := cow_id, name := cow.name, birthdate := cow.birthdate }
      Except.ok ({ db with cows := db.cows ++ [c] }, c)
  else Except.error (ApiError.badRequest "request body failed schema validation")

/-- Handler of POST /sensors (create_sensor in app/routes/sensors.py). -/
def create_sensor (db : DB) (sensor_id : String) (sensor : SensorCreate) :
    Except ApiError (DB × Sensor) :=
  if sensor.schemaValid then
    match db.sensors.find? (fun s => s.id == sensor_id) with
    | some _ => Except.error (ApiError.conflict
        ("Sensor with id " ++ sensor_id ++ " already exists"))
    | none =>
      let s : Sensor := { id := sensor_id, unit := sensor.unit }
      Except.ok ({ db with sensors := db.sensors ++ [s] }, s)
  else Except.error (ApiError.badRequest "request body failed schema validation")

/-- Handler of DELETE /measurements (delete_measurement in
app/routes/measurements.py): removes the row by primary key, 404 if absent. -/
def delete_measurement (db : DB) (measurement_id : Int) : Except ApiError DB :=
  match db.measurements.find? (fun m => m.id == measurement_id) with
  | none => Except.error (ApiError.notFound
      ("Measurement with id " ++ toString measurement_id ++ " not found"))
  | some _ => Except.ok
      { db with measurements := db.measurements.eraseP (fun m => m.id == measurement_id) }

/-- Handler of DELETE /sensors (delete_sensor in app/routes/sensors.py); the
delete-orphan cascade on Sensor.measurements (app/models.py) also removes the
measurements of the sensor. -/
def delete_sensor (db : DB) (sensor_id : String) : Except ApiError DB :=
  match db.sensors.find? (fun s => s.id == sensor_id) with
  | none => Except.error (ApiError.notFound
      ("Sensor with id " ++ sensor_id ++ " not found"))
  | some _ => Except.ok
      { db with
          sensors := db.sensors.eraseP (fun s => s.id == sensor_id)
          measurements := db.measurements.filter (fun m => m.sensor_id ≠ sensor_id) }

/-- Database state after a handler returns: on success the updated state, on
an error response the untouched one (the transaction never committed). -/
def resultingDB {α : Type} (db : DB) : Except ApiError (DB × α) → DB
  | Except.ok p => p.1
  | Except.error _ => db

/-- Lexicographic order on character lists by codepoint, strict version: the
order a relational ORDER BY applies to text columns. -/
def charListLt : List Char → List Char → Bool
  | [], [] => false
  | [], _ :: _ => true
  | _ :: _, [] => false
  | a :: as, b :: bs =>
    if a.toNat < b.toNat then true
    else if b.toNat < a.toNat then false
    else charListLt as bs

/-- Strict lexicographic order on strings. -/
def strLtB (a b : String) : Bool := charListLt a.data b.data

/-- Non-strict lexicographic order on strings. -/
def strLeB (a b : String) : Bool := !(strLtB b a)

/-- Comparator for ORDER BY name ascending on cows. -/
def nameLe (a b : Cow) : Prop := strLeB a.name b.name = true

instance : DecidableRel nameLe := fun a b => by
  unfold nameLe
  infer_instance

/-- Comparator for ORDER BY unit ascending. -/
def unitLe (a b : String) : Prop := strLeB a b = true

instance : DecidableRel unitLe := fun a b => by
  unfold unitLe
  infer_instance

/-- Comparator for ORDER BY cow id descending, day descending (milk report). -/
def milkKeyLe (a b : String × Int) : Prop :=
  strLtB b.1 a.1 = true ∨ (a.1 = b.1 ∧ b.2 ≤ a.2)

instance : DecidableRel milkKeyLe := fun a b => by
  unfold milkKeyLe
  infer_instance

/-- The join of measurements with their sensors restricted to one cow, as a
list of (measurement, sensor unit) rows: the FROM/JOIN/WHERE core shared by
both branches of get_latest_measurements_sync (app/routes/cows.py). -/
def joinedRows (db : DB) (cow_id : String) : List (Measurement × String) :=
  db.measurements.flatMap (fun m =>
    db.sensors.filterMap (fun s =>
      if m.sensor_id = s.id ∧ m.cow_id = cow_id then some (m, s.unit) else none))

/-- Head of a list of rows sorted by a rational sort key descending: the row
an ORDER BY key DESC ... first() query returns.  Among rows sharing the
maximal key the relational engine's choice is unspecified; this embedding
deterministically keeps the earliest such row. -/
def latestBy {α : Type} (key : α → ℚ) : List α → Option α
  | [] => none
  | r :: rs =>
    match latestBy key rs with
    | none => some r
    | some b => some (if key r < key b then b else r)

/-- The distinct sensor units appearing among a list of joined rows
(SELECT DISTINCT unit over the join). -/
def distinctUnits (rows : List (Measurement × String)) : List String :=
  (rows.map Prod.snd).dedup

/-- The first row of one unit group under ORDER BY timestamp DESC: the
greatest-timestamp joined row of that unit. -/
def perUnitPick (rows : List (Measurement × String)) (u : String) :
    Option (Measurement × String) :=
  latestBy (fun r => r.1.timestamp) (rows.filter (fun r => r.2 == u))

/-- PostgreSQL branch of get_latest_measurements_sync: SELECT DISTINCT ON
(unit) ... ORDER BY unit, timestamp DESC — for each unit, in ascending unit
order, the joined row with maximal timestamp. -/
def latestDistinctOn (db : DB) (cow_id : String) : List (Measurement × String) :=
  (List.insertionSort unitLe (distinctUnits (joinedRows db cow_id))).filterMap
    (perUnitPick (joinedRows db cow_id))

/-- Fallback branch of get_latest_measurements_sync: first collect the
distinct units of the cow, then for each unit run a per-unit query
ORDER BY timestamp DESC and keep its first row. -/
def latestFallback (db : DB) (cow_id : String) : List (Measurement × String) :=
  (distinctUnits (joinedRows db cow_id)).filterMap
    (perUnitPick (joinedRows db cow_id))

/-- get_latest_measurements_sync (app/routes/cows.py): dispatches on the
database dialect name, using the DISTINCT ON query on PostgreSQL and the
per-unit fallback otherwise. -/
def get_latest_measurements_sync (dialect_name : Option String) (db : DB)
    (cow_id : String) : List (Measurement × String) :=
  if (match dialect_name with
      | some n => n.startsWith "postgres"
      | none => false) then
    latestDistinctOn db cow_id
  else
    latestFallback db cow_id

/-- Midnight UTC of a calendar day (days since 1970-01-01), in epoch seconds:
the timestamp a DATE parameter denotes inside the report queries. -/
def dateToTs (d : Int) : ℚ := ((86400 * d : Int) : ℚ)

/-- Number of epoch seconds in one day of the SQL INTERVAL literals. -/
def secondsPerDay : ℚ := 86400

/-- UTC calendar day of an epoch timestamp (the timestamp::DATE cast). -/
def tsDay (t : ℚ) : Int := ⌊t / secondsPerDay⌋

/-- SQL AVG aggregate: the arithmetic mean of the non-null values, NULL when
no non-null value exists. -/
def sqlAvg (vals : List (Option ℚ)) : Option ℚ :=
  let xs := vals.filterMap id
  if xs.isEmpty then none else some (xs.sum / xs.length)

/-- SQL SUM aggregate: the sum of the non-null values, NULL when no non-null
value exists. -/
def sqlSum (vals : List (Option ℚ)) : Option ℚ :=
  let xs := vals.filterMap id
  if xs.isEmpty then none else some xs.sum

/-- The qualifying rows of the cow_weight CTE of the weights report for one
cow: valid measurements joined to a sensor of unit kg, taken no later than
the report date. -/
def weightRows (db : DB) (report_date : Int) (cow_id : String) : List Measurement :=
  db.measurements.flatMap (fun m =>
    db.sensors.filterMap (fun s =>
      if m.sensor_id = s.id ∧ m.cow_id = cow_id ∧ m.is_valid = true ∧
         s.unit = "kg" ∧ m.timestamp ≤ dateToTs report_date
      then some m else none))

/-- One output row of the weights report (reports.py, weights_report). -/
structure WeightRow where
  id : String
  name : String
  last_measured_at : Option ℚ
  last_weight : Option ℚ
  previous_30_day_weight_avg : Option ℚ
  data_status : String
  potentially_ill : Bool
deriving DecidableEq

/-- The weights-report row of one cow: the cow LEFT JOINed to its rn = 1 row
of the cow_weight CTE, with the CTE's windowed 30-day average (RANGE BETWEEN
INTERVAL 30 days PRECEDING AND CURRENT ROW over the row's own timestamp) and
the two CASE expressions for data_status and potentially_ill. -/
def weightRowFor (db : DB) (report_date : Int) (c : Cow) : WeightRow :=
  match latestBy Measurement.timestamp (weightRows db report_date c.id) with
  | none =>
    { id := c.id, name := c.name, last_measured_at := none, last_weight := none
      previous_30_day_weight_avg := none, data_status := "No Data"
      potentially_ill := false }
  | some m0 =>
    let frame := (weightRows db report_date c.id).filter
      (fun m => decide (m0.timestamp - 30 * secondsPerDay ≤ m.timestamp ∧
                        m.timestamp ≤ m0.timestamp))
    let avg := sqlAvg (frame.map Measurement.value)
    let ds :=
      if m0.value = none then "No Data"
      else if m0.timestamp < dateToTs (report_date - 3) then "Stale Data (>3 days)"
      else "Active"
    let ill :=
      match m0.value, avg with
      | some v, some a => decide (v < a * (95 / 100))
      | _, _ => false
    { id := c.id, name := c.name, last_measured_at := some m0.timestamp
      last_weight := m0.value, previous_30_day_weight_avg := avg
      data_status := ds, potentially_ill := ill }

/-- The weights report (reports.py, weights_report): one row per cow
(LEFT JOIN to the rn = 1 CTE row), ORDER BY cow name. -/
def weights_report (db : DB) (report_date : Int) : List WeightRow :=
  (List.insertionSort nameLe db.cows).map (weightRowFor db report_date)

/-- One output row of the milk report (reports.py, milk_report). -/
structure MilkRow where
  id : String
  day : Int
  milk_production : Option ℚ
deriving DecidableEq

/-- Rows surviving the FROM/JOIN/WHERE of the milk report: valid measurements
of unit L with timestamp inside the requested bounds, paired with their cow.
Although the query writes LEFT JOIN, its WHERE conditions on measurement and
sensor columns reject every null-extended row, so the join is effectively
inner on the measurement side. -/
def milkRows (db : DB) (start_date end_date : Int) : List (String × Measurement) :=
  db.cows.flatMap (fun c =>
    db.measurements.flatMap (fun m =>
      db.sensors.filterMap (fun s =>
        if c.id = m.cow_id ∧ m.sensor_id = s.id ∧ m.is_valid = true ∧
           s.unit = "L" ∧ dateToTs start_date ≤ m.timestamp ∧
           m.timestamp ≤ dateToTs end_date
        then some (c.id, m) else none)))

/-- GROUP BY keys of the milk report: the distinct (cow id, day) pairs of the
surviving rows. -/
def milkKeys (db : DB) (start_date end_date : Int) : List (String × Int) :=
  ((milkRows db start_date end_date).map
    (fun r => (r.1, tsDay r.2.timestamp))).dedup

/-- The rows of one GROUP BY group of the milk report. -/
def milkGroup (db : DB) (start_date end_date : Int) (k : String × Int) :
    List (String × Measurement) :=
  (milkRows db start_date end_date).filter
    (fun r => decide (r.1 = k.1 ∧ tsDay r.2.timestamp = k.2))

/-- The milk report (reports.py, milk_report): one row per (cow id, day)
group with the summed production, ORDER BY cow id DESC, day DESC. -/
def milk_report (db : DB) (start_date end_date : Int) : List MilkRow :=
  (List.insertionSort milkKeyLe (milkKeys db start_date end_date)).map
    (fun k =>
      { id := k.1, day := k.2
        milk_production :=
          sqlSum ((milkGroup db start_date end_date k).map
            (fun r => r.2.value)) })

/-- Default start date of the milk report when the parameter is omitted:
1900-01-01, as days since 1970-01-01. -/
def milkDefaultStart : Int := -25567

/-- Default end date of the milk report when the parameter is omitted:
9999-12-31, as days since 1970-01-01. -/
def milkDefaultEnd : Int := 2932896

/-- The milk report endpoint with its optional date parameters. -/
def milk_report_endpoint (db : DB) (sd ed : Option Int) : List MilkRow :=
  milk_report db (sd.getD milkDefaultStart) (ed.getD milkDefaultEnd)

/-- HTTP method of a registered route. -/
inductive Method where
  | get
  | post
  | delete
deriving DecidableEq

/-- A route registered on a router: method and path pattern. -/
structure Route where
  method : Method
  path : String
deriving DecidableEq

/-- The endpoints registered on the cows router in app/routes/cows.py:
POST /(cow_id), GET /, GET /(cow_id) — and nothing else; in particular no
DELETE route is registered for cows. -/
def cowsRouterRoutes : List Route :=
  [ { method := Method.post, path := "/\x7bcow_id\x7d" }
  , { method := Method.get, path := "/" }
  , { method := Method.get, path := "/\x7bcow_id\x7d" } ]

/-- The endpoints registered on the sensors router in app/routes/sensors.py,
which, unlike the cows router, does include a DELETE route. -/
def sensorsRouterRoutes : List Route :=
  [ { method := Method.post, path := "/\x7bsensor_id\x7d" }
  , { method := Method.get, path := "/" }
  , { method := Method.get, path := "/\x7bsensor_id\x7d" }
  , { method := Method.delete, path := "/\x7bsensor_id\x7d" } ]

/-- Every valid measurement carries a non-null value.  The creation path
guarantees this: a null value is always classified invalid. -/
def ValidHasValue (db : DB) : Prop :=
  ∀ m ∈ db.measurements, m.is_valid = true → m.value ≠ none

instance (db : DB) : Decidable (ValidHasValue db) := by
  unfold ValidHasValue
  infer_instance

/-! ### Order lemmas for the lexicographic string comparators -/

theorem charListLt_cons (a b : Char) (as bs : List Char) :
    charListLt (a :: as) (b :: bs) =
      if a.toNat < b.toNat then true
      else if b.toNat < a.toNat then false
      else charListLt as bs := rfl

theorem charListLt_trans : ∀ {x y z : List Char},
    charListLt x y = true → charListLt y z = true → charListLt x z = true := by
  intro x
  induction x with
  | nil =>
    intro y z hxy hyz
    cases y with
    | nil => simp [charListLt] at hxy
    | cons b bs =>
      cases z with
      | nil => simp [charListLt] at hyz
      | cons c cs => simp [charListLt]
  | cons a as ih =>
    intro y z hxy hyz
    cases y with
    | nil => simp [charListLt] at hxy
    | cons b bs =>
      cases z with
      | nil => simp [charListLt] at hyz
      | cons c cs =>
        rw [charListLt_cons] at hxy hyz ⊢
        by_cases h1 : a.toNat < b.toNat
        · by_cases h2 : b.toNat < c.toNat
          · have h3 : a.toNat < c.toNat := h1.trans h2
            simp [h3]
          · rw [if_neg h2] at hyz
            by_cases h3 : c.toNat < b.toNat
            · rw [if_pos h3] at hyz
              exact absurd hyz (by simp)
            · have h4 : a.toNat < c.toNat := by omega
              simp [h4]
        · rw [if_neg h1] at hxy
          by_cases h2 : b.toNat < a.toNat
          · rw [if_pos h2] at hxy
            exact absurd hxy (by simp)
          · rw [if_neg h2] at hxy
            by_cases h3 : b.toNat < c.toNat
            · have h4 : a.toNat < c.toNat := by omega
              simp [h4]
            · rw [if_neg h3] at hyz
              by_cases h4 : c.toNat < b.toNat
              · rw [if_pos h4] at hyz
                exact absurd hyz (by simp)
              · rw [if_neg h4] at hyz
                have h5 : ¬ a.toNat < c.toNat := by omega
                have h6 : ¬ c.toNat < a.toNat := by omega
                rw [if_neg h5, if_neg h6]
                exact ih hxy hyz

theorem char_toNat_inj {a b : Char} (h : a.toNat = b.toNat) : a = b := by
  have h2 := congrArg Char.ofNat h
  rwa [Char.ofNat_toNat, Char.ofNat_toNat] at h2

theorem charListLt_connex : ∀ {x y : List Char},
    charListLt x y = false → charListLt y x = false → x = y := by
  intro x
  induction x with
  | nil =>
    intro y h1 h2
    cases y with
    | nil => rfl
    | cons b bs => simp [charListLt] at h1
  | cons a as ih =>
    intro y h1 h2
    cases y with
    | nil => simp [charListLt] at h2
    | cons b bs =>
      rw [charListLt_cons] at h1 h2
      by_cases hab : a.toNat < b.toNat
      · rw [if_pos hab] at h1
        exact absurd h1 (by simp)
      · rw [if_neg hab] at h1
        by_cases hba : b.toNat < a.toNat
        · rw [if_pos hba] at h2
          exact absurd h2 (by simp)
        · rw [if_neg hba] at h1
          rw [if_neg hba, if_neg hab] at h2
          have hchar : a = b := char_toNat_inj (by omega)
          have htail : as = bs := ih h1 h2
          rw [hchar, htail]

theorem charListLt_irrefl : ∀ x : List Char, charListLt x x = false := by
  intro x
  induction x with
  | nil => rfl
  | cons a as ih => simp [charListLt_cons, ih]

theorem strLtB_irrefl (s : String) : strLtB s s = false :=
  charListLt_irrefl s.data

theorem strLtB_trans {a b c : String} (h1 : strLtB a b = true)
    (h2 : strLtB b c = true) : strLtB a c = true :=
  charListLt_trans h1 h2

theorem strLtB_connex {a b : String} (h1 : strLtB a b = false)
    (h2 : strLtB b a = false) : a = b := by
  have h3 : a.data = b.data := charListLt_connex h1 h2
  cases a
  cases b
  exact congrArg String.mk h3

theorem strLtB_asymm {a b : String} (h : strLtB a b = true) :
    strLtB b a = false := by
  cases h2 : strLtB b a with
  | false => rfl
  | true =>
    have h3 := strLtB_trans h h2
    rw [strLtB_irrefl] at h3
    exact absurd h3 (by simp)

theorem strLeB_iff (a b : String) : strLeB a b = true ↔ strLtB b a = false := by
  unfold strLeB
  cases strLtB b a <;> simp

instance : IsTrans Cow nameLe := by
  refine ⟨fun a b c h1 h2 => ?_⟩
  unfold nameLe at h1 h2 ⊢
  rw [strLeB_iff] at h1 h2 ⊢
  cases hca : strLtB c.name a.name with
  | false => rfl
  | true =>
    cases hbc : strLtB b.name c.name with
    | true =>
      have h3 := strLtB_trans hbc hca
      rw [h1] at h3
      exact absurd h3 (by simp)
    | false =>
      have h4 : b.name = c.name := strLtB_connex hbc h2
      rw [← h4] at hca
      rw [h1] at hca
      exact absurd hca (by simp)

instance : IsTotal Cow nameLe := by
  refine ⟨fun a b => ?_⟩
  unfold nameLe
  rw [strLeB_iff, strLeB_iff]
  cases h : strLtB b.name a.name with
  | false => exact Or.inl rfl
  | true => exact Or.inr (strLtB_asymm h)

instance : IsTrans String unitLe := by
  refine ⟨fun a b c h1 h2 => ?_⟩
  unfold unitLe at h1 h2 ⊢
  rw [strLeB_iff] at h1 h2 ⊢
  cases hca : strLtB c a with
  | false => rfl
  | true =>
    cases hbc : strLtB b c with
    | true =>
      have h3 := strLtB_trans hbc hca
      rw [h1] at h3
      exact absurd h3 (by simp)
    | false =>
      have h4 : b = c := strLtB_connex hbc h2
      rw [← h4] at hca
      rw [h1] at hca
      exact absurd hca (by simp)

instance : IsTotal String unitLe := by
  refine ⟨fun a b => ?_⟩
  unfold unitLe
  rw [strLeB_iff, strLeB_iff]
  cases h : strLtB b a with
  | false => exact Or.inl rfl
  | true => exact Or.inr (strLtB_asymm h)

instance : IsTrans (String × Int) milkKeyLe := by
  refine ⟨fun a b c h1 h2 => ?_⟩
  unfold milkKeyLe at h1 h2 ⊢
  rcases h1 with h1 | ⟨h1e, h1le⟩
  · rcases h2 with h2 | ⟨h2e, h2le⟩
    · exact Or.inl (strLtB_trans h2 h1)
    · rw [h2e] at h1
      exact Or.inl h1
  · rcases h2 with h2 | ⟨h2e, h2le⟩
    · rw [h1e]
      exact Or.inl h2
    · exact Or.inr ⟨h1e.trans h2e, h2le.trans h1le⟩

instance : IsTotal (String × Int) milkKeyLe := by
  refine ⟨fun a b => ?_⟩
  unfold milkKeyLe
  cases hba : strLtB b.1 a.1 with
  | true => exact Or.inl (Or.inl rfl)
  | false =>
    cases hab : strLtB a.1 b.1 with
    | true => exact Or.inr (Or.inl rfl)
    | false =>
      have he : a.1 = b.1 := strLtB_connex hab hba
      rcases le_total b.2 a.2 with h | h
      · exact Or.inl (Or.inr ⟨he, h⟩)
      · exact Or.inr (Or.inr ⟨he.symm, h⟩)

/-! ### Lemmas about latestBy and the per-unit selection -/

theorem latestBy_mem {α : Type} {key : α → ℚ} : ∀ {l : List α} {a : α},
    latestBy key l = some a → a ∈ l := by
  intro l
  induction l with
  | nil => intro a h; simp [latestBy] at h
  | cons r rs ih =>
    intro a h
    rw [latestBy] at h
    cases hrs : latestBy key rs with
    | none =>
      rw [hrs] at h
      simp at h
      rw [← h]
      exact List.mem_cons_self r rs
    | some b =>
      rw [hrs] at h
      simp at h
      by_cases hlt : key r < key b
      · rw [if_pos hlt] at h
        rw [← h]
        exact List.mem_cons_of_mem r (ih hrs)
      · rw [if_neg hlt] at h
        rw [← h]
        exact List.mem_cons_self r rs

theorem latestBy_le {α : Type} {key : α → ℚ} : ∀ {l : List α} {a : α},
    latestBy key l = some a → ∀ b ∈ l, key b ≤ key a := by
  intro l
  induction l with
  | nil => intro a h; simp [latestBy] at h
  | cons r rs ih =>
    intro a h b hb
    rw [latestBy] at h
    cases hrs : latestBy key rs with
    | none =>
      rw [hrs] at h
      simp at h
      have hnil : rs = [] := by
        cases rs with
        | nil => rfl
        | cons x xs =>
          rw [latestBy] at hrs
          cases hxs : latestBy key xs with
          | none => rw [hxs] at hrs; simp at hrs
          | some v => rw [hxs] at hrs; simp at hrs
      subst hnil
      simp at hb
      rw [hb, h]
    | some c =>
      rw [hrs] at h
      simp at h
      rcases List.mem_cons.mp hb with hbr | hbrs
      · by_cases hlt : key r < key c
        · rw [if_pos hlt] at h
          rw [hbr, ← h]
          exact le_of_lt hlt
        · rw [if_neg hlt] at h
          rw [hbr, ← h]
      · have hle := ih hrs b hbrs
        by_cases hlt : key r < key c
        · rw [if_pos hlt] at h
          rw [← h]
          exact hle
        · rw [if_neg hlt] at h
          rw [← h]
          exact hle.trans (le_of_not_lt hlt)

theorem latestBy_eq_none {α : Type} {key : α → ℚ} {l : List α} :
    latestBy key l = none ↔ l = [] := by
  cases l with
  | nil => simp [latestBy]
  | cons r rs =>
    rw [latestBy]
    cases latestBy key rs <;> simp

theorem perUnitPick_mem {rows : List (Measurement × String)} {u : String}
    {r : Measurement × String} (h : perUnitPick rows u = some r) :
    r ∈ rows ∧ r.2 = u := by
  have hm := latestBy_mem h
  rw [List.mem_filter] at hm
  exact ⟨hm.1, by simpa using hm.2⟩

theorem perUnitPick_le {rows : List (Measurement × String)} {u : String}
    {r : Measurement × String} (h : perUnitPick rows u = some r) :
    ∀ q ∈ rows, q.2 = u → q.1.timestamp ≤ r.1.timestamp := by
  intro q hq hqu
  exact latestBy_le h q (List.mem_filter.mpr ⟨hq, by simp [hqu]⟩)

theorem perUnitPick_isSome {rows : List (Measurement × String)} {u : String}
    (h : u ∈ rows.map Prod.snd) : ∃ r, perUnitPick rows u = some r := by
  obtain ⟨p, hp, hpu⟩ := List.mem_map.mp h
  have hne : rows.filter (fun r => r.2 == u) ≠ [] :=
    List.ne_nil_of_mem (List.mem_filter.mpr ⟨hp, by simp [hpu]⟩)
  cases hl : perUnitPick rows u with
  | none => exact absurd (latestBy_eq_none.mp hl) hne
  | some r => exact ⟨r, rfl⟩

theorem snds_nodup (rows : List (Measurement × String)) :
    ∀ us : List String, us.Nodup →
      ((us.filterMap (perUnitPick rows)).map Prod.snd).Nodup := by
  intro us
  induction us with
  | nil => intro _; simp
  | cons u us ih =>
    intro hnd
    rw [List.filterMap_cons]
    cases h : perUnitPick rows u with
    | none => exact ih hnd.of_cons
    | some r =>
      rw [List.map_cons]
      refine List.nodup_cons.mpr ⟨?_, ih hnd.of_cons⟩
      intro hmem
      obtain ⟨p, hp, hps⟩ := List.mem_map.mp hmem
      obtain ⟨u2, hu2, hpu2⟩ := List.mem_filterMap.mp hp
      have h1 : p.2 = u2 := (perUnitPick_mem hpu2).2
      have h2 : r.2 = u := (perUnitPick_mem h).2
      have h3 : u2 = u := h1.symm.trans (hps.trans h2)
      rw [h3] at hu2
      exact (List.nodup_cons.mp hnd).1 hu2

theorem mem_snds_iff (rows : List (Measurement × String)) (us : List String)
    (hus : ∀ u, u ∈ us ↔ u ∈ rows.map Prod.snd) :
    ∀ u, u ∈ (us.filterMap (perUnitPick rows)).map Prod.snd ↔
      u ∈ rows.map Prod.snd := by
  intro u
  constructor
  · intro h
    obtain ⟨p, hp, hps⟩ := List.mem_map.mp h
    obtain ⟨u2, hu2, hpu2⟩ := List.mem_filterMap.mp hp
    have h1 : p ∈ rows := (perUnitPick_mem hpu2).1
    rw [← hps]
    exact List.mem_map_of_mem Prod.snd h1
  · intro h
    have hu : u ∈ us := (hus u).mpr h
    obtain ⟨r, hr⟩ := perUnitPick_isSome h
    have hmem : r ∈ us.filterMap (perUnitPick rows) :=
      List.mem_filterMap.mpr ⟨u, hu, hr⟩
    have h2 : r.2 = u := (perUnitPick_mem hr).2
    rw [← h2]
    exact List.mem_map_of_mem Prod.snd hmem

theorem result_maximal (rows : List (Measurement × String)) (us : List String) :
    ∀ p ∈ us.filterMap (perUnitPick rows),
      p ∈ rows ∧ ∀ q ∈ rows, q.2 = p.2 → q.1.timestamp ≤ p.1.timestamp := by
  intro p hp
  obtain ⟨u, hu, hpu⟩ := List.mem_filterMap.mp hp
  have h1 := perUnitPick_mem hpu
  refine ⟨h1.1, fun q hq hq2 => ?_⟩
  exact perUnitPick_le hpu q hq (hq2.trans h1.2)

theorem distinctUnits_nodup (rows : List (Measurement × String)) :
    (distinctUnits rows).Nodup :=
  List.nodup_dedup _

theorem mem_distinctUnits (rows : List (Measurement × String)) (u : String) :
    u ∈ distinctUnits rows ↔ u ∈ rows.map Prod.snd :=
  List.mem_dedup

theorem sortedUnits_nodup (rows : List (Measurement × String)) :
    (List.insertionSort unitLe (distinctUnits rows)).Nodup :=
  (List.perm_insertionSort unitLe (distinctUnits rows)).nodup_iff.mpr
    (distinctUnits_nodup rows)

theorem mem_sortedUnits (rows : List (Measurement × String)) (u : String) :
    u ∈ List.insertionSort unitLe (distinctUnits rows) ↔ u ∈ rows.map Prod.snd := by
  rw [(List.perm_insertionSort unitLe (distinctUnits rows)).mem_iff]
  exact mem_distinctUnits rows u

theorem joinedRows_eq_nil {db : DB} {cow_id : String}
    (h : ∀ m ∈ db.measurements, m.cow_id ≠ cow_id) :
    joinedRows db cow_id = [] := by
  rw [List.eq_nil_iff_forall_not_mem]
  intro p hp
  unfold joinedRows at hp
  obtain ⟨m, hm, hp2⟩ := List.mem_flatMap.mp hp
  obtain ⟨s, hs, hp3⟩ := List.mem_filterMap.mp hp2
  by_cases hc : m.sensor_id = s.id ∧ m.cow_id = cow_id
  · exact h m hm hc.2
  · rw [if_neg hc] at hp3
    exact Option.noConfusion hp3

theorem latest_core (rows : List (Measurement × String)) (us : List String)
    (hnd : us.Nodup) (hmem : ∀ u, u ∈ us ↔ u ∈ rows.map Prod.snd) :
    ((us.filterMap (perUnitPick rows)).map Prod.snd).Nodup
    ∧ (∀ u, u ∈ (us.filterMap (perUnitPick rows)).map Prod.snd ↔
        u ∈ rows.map Prod.snd)
    ∧ (∀ p ∈ us.filterMap (perUnitPick rows), p ∈ rows ∧
        ∀ q ∈ rows, q.2 = p.2 → q.1.timestamp ≤ p.1.timestamp)
    ∧ (∀ p ∈ rows,
        (∀ q ∈ rows, q.2 = p.2 → q ≠ p → q.1.timestamp < p.1.timestamp) →
        p ∈ us.filterMap (perUnitPick rows))
    ∧ (rows = [] → us.filterMap (perUnitPick rows) = []) := by
  refine ⟨snds_nodup rows us hnd, mem_snds_iff rows us hmem,
    result_maximal rows us, ?_, ?_⟩
  · intro p hp hstrict
    have hps : p.2 ∈ rows.map Prod.snd := List.mem_map_of_mem Prod.snd hp
    have hcov := (mem_snds_iff rows us hmem p.2).mpr hps
    obtain ⟨e, he, hes⟩ := List.mem_map.mp hcov
    have hmax := result_maximal rows us e he
    have hle : p.1.timestamp ≤ e.1.timestamp := hmax.2 p hp (by rw [hes])
    by_cases hep : e = p
    · rwa [hep] at he
    · have hlt := hstrict e hmax.1 hes hep
      exact absurd hle (not_le.mpr hlt)
  · intro hrows
    have hus : us = [] := by
      rw [List.eq_nil_iff_forall_not_mem]
      intro u hu
      have h2 := (hmem u).mp hu
      rw [hrows] at h2
      simp at h2
    rw [hus]
    rfl

theorem latest_core_unique {rows : List (Measurement × String)}
    (hties : ∀ p ∈ rows, ∀ q ∈ rows,
      p.2 = q.2 → p.1.timestamp = q.1.timestamp → p = q)
    {usA usB : List String}
    (hmemB : ∀ u, u ∈ usB ↔ u ∈ rows.map Prod.snd)
    {p : Measurement × String} (hp : p ∈ usA.filterMap (perUnitPick rows)) :
    p ∈ usB.filterMap (perUnitPick rows) := by
  have hmaxA := result_maximal rows usA p hp
  have hps : p.2 ∈ rows.map Prod.snd := List.mem_map_of_mem Prod.snd hmaxA.1
  have hcov := (mem_snds_iff rows usB hmemB p.2).mpr hps
  obtain ⟨e, he, hes⟩ := List.mem_map.mp hcov
  have hmaxB := result_maximal rows usB e he
  have h1 : p.1.timestamp ≤ e.1.timestamp := hmaxB.2 p hmaxA.1 (by rw [hes])
  have h2 : e.1.timestamp ≤ p.1.timestamp := hmaxA.2 e hmaxB.1 hes
  have hpe : p = e := hties p hmaxA.1 e hmaxB.1 hes.symm (le_antisymm h1 h2)
  rwa [hpe]

/-- C1: on either dialect branch, the latest-measurement resolver returns a
list with exactly one entry per distinct sensor unit among the cow's joined
measurement rows; every entry is one of the cow's joined rows and carries the
maximal timestamp of its unit (no is_valid filter: a strictly-newest row is
returned whether valid or not); and a cow with no measurements yields the
empty list rather than an error. -/
theorem latest_per_unit_correct (dialect_name : Option String) (db : DB)
    (cow_id : String) :
    ((get_latest_measurements_sync dialect_name db cow_id).map Prod.snd).Nodup
    ∧ (∀ u, u ∈ (get_latest_measurements_sync dialect_name db cow_id).map Prod.snd ↔
        u ∈ (joinedRows db cow_id).map Prod.snd)
    ∧ (∀ p ∈ get_latest_measurements_sync dialect_name db cow_id,
        p ∈ joinedRows db cow_id ∧
        ∀ q ∈ joinedRows db cow_id, q.2 = p.2 → q.1.timestamp ≤ p.1.timestamp)
    ∧ (∀ p ∈ joinedRows db cow_id,
        (∀ q ∈ joinedRows db cow_id, q.2 = p.2 → q ≠ p →
          q.1.timestamp < p.1.timestamp) →
        p ∈ get_latest_measurements_sync dialect_name db cow_id)
    ∧ ((∀ m ∈ db.measurements, m.cow_id ≠ cow_id) →
        get_latest_measurements_sync dialect_name db cow_id = []) := by
  unfold get_latest_measurements_sync
  split
  · unfold latestDistinctOn
    obtain ⟨a, b, c, d, e⟩ := latest_core (joinedRows db cow_id) _
      (sortedUnits_nodup _) (mem_sortedUnits _)
    exact ⟨a, b, c, d, fun h => e (joinedRows_eq_nil h)⟩
  · unfold latestFallback
    obtain ⟨a, b, c, d, e⟩ := latest_core (joinedRows db cow_id) _
      (distinctUnits_nodup _) (mem_distinctUnits _)
    exact ⟨a, b, c, d, fun h => e (joinedRows_eq_nil h)⟩

/-- An example cow used to instantiate theorems at concrete states. -/
def exCow : Cow := { id := "c1", name := "Bessie", birthdate := 18270 }

/-- An example state with a cow and no measurements. -/
def exDB0 : DB := { cows := [exCow], sensors := [], measurements := [] }

theorem latest_per_unit_correct_witness :
    get_latest_measurements_sync none exDB0 "c1" = [] :=
  (latest_per_unit_correct none exDB0 "c1").2.2.2.2 (by
    intro m hm
    simp [exDB0] at hm)

/-- C9: both branches of the resolver cover the same set of units, each
returns only maximal-timestamp rows per unit, and when no two rows of a unit
share the maximal timestamp (the only freedom the queries leave open) the two
branches return exactly the same set of (measurement, unit) entries. -/
theorem latest_paths_equivalent (db : DB) (cow_id : String) :
    (∀ u, u ∈ (latestDistinctOn db cow_id).map Prod.snd ↔
        u ∈ (latestFallback db cow_id).map Prod.snd)
    ∧ (∀ p ∈ latestDistinctOn db cow_id, p ∈ joinedRows db cow_id ∧
        ∀ q ∈ joinedRows db cow_id, q.2 = p.2 → q.1.timestamp ≤ p.1.timestamp)
    ∧ (∀ p ∈ latestFallback db cow_id, p ∈ joinedRows db cow_id ∧
        ∀ q ∈ joinedRows db cow_id, q.2 = p.2 → q.1.timestamp ≤ p.1.timestamp)
    ∧ ((∀ p ∈ joinedRows db cow_id, ∀ q ∈ joinedRows db cow_id,
          p.2 = q.2 → p.1.timestamp = q.1.timestamp → p = q) →
        ∀ p, p ∈ latestDistinctOn db cow_id ↔ p ∈ latestFallback db cow_id) := by
  refine ⟨?_, ?_, ?_, ?_⟩
  · intro u
    unfold latestDistinctOn latestFallback
    rw [mem_snds_iff (joinedRows db cow_id) _ (mem_sortedUnits _),
        mem_snds_iff (joinedRows db cow_id) _ (mem_distinctUnits _)]
  · exact result_maximal (joinedRows db cow_id) _
  · exact result_maximal (joinedRows db cow_id) _
  · intro hties p
    constructor
    · intro h
      exact latest_core_unique hties (mem_distinctUnits _) h
    · intro h
      exact latest_core_unique hties (mem_sortedUnits _) h

/-- An example liter sensor. -/
def exSensorL : Sensor := { id := "sa", unit := "L" }

/-- An example kilogram sensor. -/
def exSensorKg : Sensor := { id := "sb", unit := "kg" }

/-- Example measurements: two liter readings and one weight reading. -/
def exM1 : Measurement :=
  { id := 1, sensor_id := "sa", cow_id := "c1", timestamp := 100
    value := some 10, is_valid := true, validation_error := none }

/-- Second example liter reading, the newer one. -/
def exM2 : Measurement :=
  { id := 2, sensor_id := "sa", cow_id := "c1", timestamp := 200
    value := some 12, is_valid := true, validation_error := none }

/-- Example weight reading. -/
def exM3 : Measurement :=
  { id := 3, sensor_id := "sb", cow_id := "c1", timestamp := 150
    value := some 200, is_valid := true, validation_error := none }

/-- An example state with one cow, two sensors and three measurements. -/
def exDB1 : DB :=
  { cows := [exCow], sensors := [exSensorL, exSensorKg]
    measurements := [exM1, exM2, exM3] }

theorem latest_paths_equivalent_witness :
    (exM2, "L") ∈ latestDistinctOn exDB1 "c1" ↔
      (exM2, "L") ∈ latestFallback exDB1 "c1" :=
  (latest_paths_equivalent exDB1 "c1").2.2.2 (by decide) (exM2, "L")

/-- C2: classification at creation time — for unit L or kg a non-null value
below or equal to zero is invalid with a message embedding the value rendered
as a float, a positive value is valid; a null value is invalid for every
unit; any other unit accepts every non-null value. -/
theorem classify_spec (v : ℚ) (unit : String) :
    ((unit = "L" ∨ unit = "kg") →
      (v ≤ 0 → classify (some v) unit =
        (false, some ("value is " ++ pyFloatRepr v)))
      ∧ (0 < v → classify (some v) unit = (true, none)))
    ∧ classify none unit = (false, some "value is null")
    ∧ (unit ≠ "L" → unit ≠ "kg" → classify (some v) unit = (true, none)) := by
  refine ⟨fun hu => ⟨fun hle => ?_, fun hpos => ?_⟩, rfl, fun h1 h2 => ?_⟩
  · show (if unit = "L" ∨ unit = "kg" then
        if v ≤ 0 then (false, some ("value is " ++ pyFloatRepr v)) else (true, none)
      else (true, none)) = _
    rw [if_pos hu, if_pos hle]
  · show (if unit = "L" ∨ unit = "kg" then
        if v ≤ 0 then (false, some ("value is " ++ pyFloatRepr v)) else (true, none)
      else (true, none)) = _
    rw [if_pos hu, if_neg (not_le.mpr hpos)]
  · show (if unit = "L" ∨ unit = "kg" then
        if v ≤ 0 then (false, some ("value is " ++ pyFloatRepr v)) else (true, none)
      else (true, none)) = _
    rw [if_neg (not_or.mpr ⟨h1, h2⟩)]

theorem classify_spec_witness :
    classify (some (-1)) "L" = (false, some "value is -1.0")
    ∧ classify (some 2) "kg" = (true, none)
    ∧ classify none "L" = (false, some "value is null")
    ∧ classify (some (-5)) "steps" = (true, none) := by
  refine ⟨?_, ?_, ?_, ?_⟩
  · have h := ((classify_spec (-1) "L").1 (Or.inl rfl)).1 (by norm_num)
    rw [h]
    decide
  · exact ((classify_spec 2 "kg").1 (Or.inr rfl)).2 (by norm_num)
  · exact (classify_spec 0 "L").2.1
  · exact (classify_spec (-5) "steps").2.2 (by decide) (by decide)

/-- The classification always lands in one of the two legal derived states:
valid with no error, or invalid with an error message. -/
theorem classify_cases (v : Option ℚ) (unit : String) :
    classify v unit = (true, none) ∨ ∃ e, classify v unit = (false, some e) := by
  cases v with
  | none => exact Or.inr ⟨"value is null", rfl⟩
  | some x =>
    show (if unit = "L" ∨ unit = "kg" then
        if x ≤ 0 then (false, some ("value is " ++ pyFloatRepr x)) else (true, none)
      else (true, none)) = (true, none) ∨ ∃ e, (if unit = "L" ∨ unit = "kg" then
        if x ≤ 0 then (false, some ("value is " ++ pyFloatRepr x)) else (true, none)
      else (true, none)) = (false, some e)
    by_cases hu : unit = "L" ∨ unit = "kg"
    · rw [if_pos hu]
      by_cases hx : x ≤ 0
      · rw [if_pos hx]
        exact Or.inr ⟨_, rfl⟩
      · rw [if_neg hx]
        exact Or.inl rfl
    · rw [if_neg hu]
      exact Or.inl rfl

/-- C6: the cows router registers no DELETE endpoint at all (while the
sensors router does) — the Delete Cow operation does not exist at the
boundary. -/
theorem cows_router_no_delete :
    cowsRouterRoutes.filter (fun r => r.method == Method.delete) = []
    ∧ sensorsRouterRoutes.filter (fun r => r.method == Method.delete) =
        [{ method := Method.delete, path := "/\x7bsensor_id\x7d" }] := by
  decide

/-- C7: create-measurement fails NotFound whenever the sensor id or the cow
id does not resolve to a stored row; with both resolved it fails BadRequest
exactly on an unconvertible timestamp, and otherwise persists and returns a
measurement whose is_valid and validation_error come from the validation
rules applied to the value and the sensor unit. -/
theorem create_measurement_boundary (db : DB) (r : MeasurementCreate) :
    (((∀ s ∈ db.sensors, s.id ≠ r.sensor_id) ∨ (∀ c ∈ db.cows, c.id ≠ r.cow_id)) →
      ∃ d, create_measurement db r = Except.error (ApiError.notFound d))
    ∧ (∀ sensor, db.sensors.find? (fun s => s.id == r.sensor_id) = some sensor →
        ∀ c, db.cows.find? (fun c2 => c2.id == r.cow_id) = some c →
        (fromtimestamp r.timestamp = none →
          create_measurement db r =
            Except.error (ApiError.badRequest "Invalid timestamp"))
        ∧ (∀ ts, fromtimestamp r.timestamp = some ts →
            ∃ m, create_measurement db r =
                Except.ok ({ db with measurements := db.measurements ++ [m] }, m)
              ∧ m.sensor_id = r.sensor_id ∧ m.cow_id = r.cow_id
              ∧ m.timestamp = ts ∧ m.value = r.value
              ∧ m.is_valid = (classify r.value sensor.unit).1
              ∧ m.validation_error = (classify r.value sensor.unit).2)) := by
  constructor
  · intro h
    cases hs : db.sensors.find? (fun s => s.id == r.sensor_id) with
    | none => exact ⟨_, by unfold create_measurement; rw [hs]⟩
    | some sensor =>
      rcases h with h | h
      · have h1 : sensor.id = r.sensor_id := by simpa using List.find?_some hs
        exact absurd h1 (h sensor (List.mem_of_find?_eq_some hs))
      · cases hc : db.cows.find? (fun c2 => c2.id == r.cow_id) with
        | none => exact ⟨_, by unfold create_measurement; rw [hs, hc]⟩
        | some c =>
          have h1 : c.id = r.cow_id := by simpa using List.find?_some hc
          exact absurd h1 (h c (List.mem_of_find?_eq_some hc))
  · intro sensor hs c hc
    constructor
    · intro hts
      unfold create_measurement
      rw [hs, hc, hts]
    · intro ts hts
      unfold create_measurement
      rw [hs, hc, hts]
      exact ⟨_, rfl, rfl, rfl, rfl, rfl, rfl, rfl⟩

/-- Example request body whose ids have the mandated length 36. -/
def exReq : MeasurementCreate :=
  { sensor_id := "b3fd06f1-ce63-4897-97de-675badbf4076"
    cow_id := "c821a6b7-8dd0-4b4e-9835-1c0c57264ba4"
    timestamp := 1609459200, value := some 5 }

theorem create_measurement_boundary_witness :
    ∃ d, create_measurement exDB0 exReq = Except.error (ApiError.notFound d) :=
  (create_measurement_boundary exDB0 exReq).1 (Or.inl (by
    intro s hs
    simp [exDB0] at hs))

/-- C8: every measurement returned by a successful creation satisfies the
derived-pair invariant (valid with no error, or invalid with an error), it is
appended to the store even when invalid, and no operation of the API ever
rewrites a stored measurement — creation appends, deletion only removes,
and cow/sensor creation leaves the measurements untouched. -/
theorem measurement_invariant (db : DB) (r : MeasurementCreate) (mid : Int)
    (cowId sensorId : String) (cb : CowCreate) (sb : SensorCreate) :
    (∀ db2 m, create_measurement db r = Except.ok (db2, m) →
      ((m.is_valid = true ∧ m.validation_error = none)
        ∨ (m.is_valid = false ∧ m.validation_error ≠ none))
      ∧ db2.measurements = db.measurements ++ [m])
    ∧ (∀ db2, delete_measurement db mid = Except.ok db2 →
        ∀ m2 ∈ db2.measurements, m2 ∈ db.measurements)
    ∧ (∀ db2, delete_sensor db sensorId = Except.ok db2 →
        ∀ m2 ∈ db2.measurements, m2 ∈ db.measurements)
    ∧ (∀ db2 c2, create_cow db cowId cb = Except.ok (db2, c2) →
        db2.measurements = db.measurements)
    ∧ (∀ db2 s2, create_sensor db sensorId sb = Except.ok (db2, s2) →
        db2.measurements = db.measurements) := by
  refine ⟨?_, ?_, ?_, ?_, ?_⟩
  · intro db2 m h
    unfold create_measurement at h
    cases hs : db.sensors.find? (fun s => s.id == r.sensor_id) with
    | none => rw [hs] at h; exact absurd h (by simp)
    | some sensor =>
      rw [hs] at h
      cases hc : db.cows.find? (fun c2 => c2.id == r.cow_id) with
      | none => rw [hc] at h; exact absurd h (by simp)
      | some c =>
        rw [hc] at h
        cases hts : fromtimestamp r.timestamp with
        | none => rw [hts] at h; exact absurd h (by simp)
        | some ts =>
          rw [hts] at h
          simp only [Except.ok.injEq, Prod.mk.injEq] at h
          obtain ⟨hdb, hm⟩ := h
          constructor
          · rcases classify_cases r.value sensor.unit with hcl | ⟨e, hcl⟩
            · left
              rw [← hm]
              simp [hcl]
            · right
              rw [← hm]
              simp [hcl]
          · rw [← hdb, ← hm]
  · intro db2 h
    unfold delete_measurement at h
    cases hf : db.measurements.find? (fun m2 => m2.id == mid) with
    | none => rw [hf] at h; exact absurd h (by simp)
    | some m0 =>
      rw [hf] at h
      simp only [Except.ok.injEq] at h
      intro m2 hm2
      rw [← h] at hm2
      exact (List.eraseP_sublist _).subset hm2
  · intro db2 h
    unfold delete_sensor at h
    cases hf : db.sensors.find? (fun s => s.id == sensorId) with
    | none => rw [hf] at h; exact absurd h (by simp)
    | some s0 =>
      rw [hf] at h
      simp only [Except.ok.injEq] at h
      intro m2 hm2
      rw [← h] at hm2
      exact List.mem_of_mem_filter hm2
  · intro db2 c2 h
    unfold create_cow at h
    by_cases hsv : cb.schemaValid
    · rw [if_pos hsv] at h
      cases hf : db.cows.find? (fun c3 => c3.id == cowId) with
      | some c3 => rw [hf] at h; exact absurd h (by simp)
      | none =>
        rw [hf] at h
        simp only [Except.ok.injEq, Prod.mk.injEq] at h
        rw [← h.1]
    · rw [if_neg hsv] at h
      exact absurd h (by simp)
  · intro db2 s2 h
    unfold create_sensor at h
    by_cases hsv : sb.schemaValid
    · rw [if_pos hsv] at h
      cases hf : db.sensors.find? (fun s3 => s3.id == sensorId) with
      | some s3 => rw [hf] at h; exact absurd h (by simp)
      | none =>
        rw [hf] at h
        simp only [Except.ok.injEq, Prod.mk.injEq] at h
        rw [← h.1]
    · rw [if_neg hsv] at h
      exact absurd h (by simp)

/-- Example request with an invalid (negative) value for a liter sensor. -/
def exReq2 : MeasurementCreate :=
  { sensor_id := "sa", cow_id := "c1", timestamp := 1609459200
    value := some (-1) }

/-- The measurement exReq2 creates on top of exDB1: flagged invalid but
persisted. -/
def exMNew : Measurement :=
  { id := 4, sensor_id := "sa", cow_id := "c1", timestamp := 1609459200
    value := some (-1), is_valid := false
    validation_error := some "value is -1.0" }

/-- The state exDB1 reaches after ingesting exReq2. -/
def exDB2 : DB :=
  { cows := [exCow], sensors := [exSensorL, exSensorKg]
    measurements := [exM1, exM2, exM3, exMNew] }

/-- Example cow request body. -/
def exCowBody : CowCreate := { name := "Bessie", birthdate := 18270 }

/-- Example sensor request body. -/
def exSensorBody : SensorCreate := { unit := "L" }

theorem measurement_invariant_witness :
    ((exMNew.is_valid = true ∧ exMNew.validation_error = none)
      ∨ (exMNew.is_valid = false ∧ exMNew.validation_error ≠ none))
    ∧ exDB2.measurements = exDB1.measurements ++ [exMNew] :=
  (measurement_invariant exDB1 exReq2 1 "c1" "sa" exCowBody exSensorBody).1
    exDB2 exMNew (by rfl)

/-- C10: a measurement request whose sensor id or cow id is not exactly 36
characters long is rejected at the schema gate with no change to the store —
even against a store already containing entities with those ids — while cow
and sensor creation accept path-parameter ids of every length. -/
theorem measurement_id_length_gate (db : DB) (r : MeasurementCreate)
    (cowId sensorId : String) (cb : CowCreate) (sb : SensorCreate) :
    ((r.sensor_id.length ≠ 36 ∨ r.cow_id.length ≠ 36) →
      (∃ d, post_measurement db r = Except.error (ApiError.badRequest d))
      ∧ resultingDB db (post_measurement db r) = db)
    ∧ (cb.schemaValid → (∀ c ∈ db.cows, c.id ≠ cowId) →
        ∃ c2, create_cow db cowId cb =
            Except.ok ({ db with cows := db.cows ++ [c2] }, c2) ∧ c2.id = cowId)
    ∧ (sb.schemaValid → (∀ s ∈ db.sensors, s.id ≠ sensorId) →
        ∃ s2, create_sensor db sensorId sb =
            Except.ok ({ db with sensors := db.sensors ++ [s2] }, s2)
          ∧ s2.id = sensorId) := by
  refine ⟨?_, ?_, ?_⟩
  · intro h
    have hnv : ¬ r.schemaValid := by
      unfold MeasurementCreate.schemaValid
      rcases h with h | h
      · intro hc
        exact h hc.1
      · intro hc
        exact h hc.2.1
    unfold post_measurement
    rw [if_neg hnv]
    exact ⟨⟨_, rfl⟩, rfl⟩
  · intro hsv hfresh
    unfold create_cow
    rw [if_pos hsv]
    cases hf : db.cows.find? (fun c3 => c3.id == cowId) with
    | some c3 =>
      have h1 : c3.id = cowId := by simpa using List.find?_some hf
      exact absurd h1 (hfresh c3 (List.mem_of_find?_eq_some hf))
    | none => exact ⟨_, rfl, rfl⟩
  · intro hsv hfresh
    unfold create_sensor
    rw [if_pos hsv]
    cases hf : db.sensors.find? (fun s3 => s3.id == sensorId) with
    | some s3 =>
      have h1 : s3.id = sensorId := by simpa using List.find?_some hf
      exact absurd h1 (hfresh s3 (List.mem_of_find?_eq_some hf))
    | none => exact ⟨_, rfl, rfl⟩

theorem measurement_id_length_gate_witness :
    ((∃ d, post_measurement exDB1 exReq2 = Except.error (ApiError.badRequest d))
      ∧ resultingDB exDB1 (post_measurement exDB1 exReq2) = exDB1)
    ∧ ∃ c2, create_cow exDB0 "x" exCowBody =
        Except.ok ({ exDB0 with cows := exDB0.cows ++ [c2] }, c2) ∧ c2.id = "x" :=
  ⟨(measurement_id_length_gate exDB1 exReq2 "c1" "sa" exCowBody exSensorBody).1
      (Or.inl (by decide)),
   (measurement_id_length_gate exDB0 exReq2 "x" "sa" exCowBody exSensorBody).2.1
      (by decide) (by decide)⟩

/-! ### Weights report lemmas -/

theorem weightRowFor_id (db : DB) (rd : Int) (c : Cow) :
    (weightRowFor db rd c).id = c.id := by
  unfold weightRowFor
  cases latestBy Measurement.timestamp (weightRows db rd c.id) <;> rfl

theorem weightRowFor_name (db : DB) (rd : Int) (c : Cow) :
    (weightRowFor db rd c).name = c.name := by
  unfold weightRowFor
  cases latestBy Measurement.timestamp (weightRows db rd c.id) <;> rfl

theorem weightRowFor_none {db : DB} {rd : Int} {c : Cow}
    (h : latestBy Measurement.timestamp (weightRows db rd c.id) = none) :
    weightRowFor db rd c =
      { id := c.id, name := c.name, last_measured_at := none, last_weight := none
        previous_30_day_weight_avg := none, data_status := "No Data"
        potentially_ill := false } := by
  unfold weightRowFor
  rw [h]

theorem weightRowFor_eq_some {db : DB} {rd : Int} {c : Cow} {m0 : Measurement}
    (h : latestBy Measurement.timestamp (weightRows db rd c.id) = some m0) :
    weightRowFor db rd c =
      { id := c.id, name := c.name, last_measured_at := some m0.timestamp
        last_weight := m0.value
        previous_30_day_weight_avg := sqlAvg (((weightRows db rd c.id).filter
          (fun m => decide (m0.timestamp - 30 * secondsPerDay ≤ m.timestamp ∧
                            m.timestamp ≤ m0.timestamp))).map Measurement.value)
        data_status :=
          if m0.value = none then "No Data"
          else if m0.timestamp < dateToTs (rd - 3) then "Stale Data (>3 days)"
          else "Active"
        potentially_ill :=
          match m0.value, sqlAvg (((weightRows db rd c.id).filter
            (fun m => decide (m0.timestamp - 30 * secondsPerDay ≤ m.timestamp ∧
                              m.timestamp ≤ m0.timestamp))).map Measurement.value) with
          | some v, some a => decide (v < a * (95 / 100))
          | _, _ => false } := by
  unfold weightRowFor
  rw [h]

theorem mem_weightRows {db : DB} {rd : Int} {cid : String} {m : Measurement} :
    m ∈ weightRows db rd cid ↔
      m ∈ db.measurements
      ∧ (∃ s ∈ db.sensors, m.sensor_id = s.id ∧ s.unit = "kg")
      ∧ m.cow_id = cid ∧ m.is_valid = true ∧ m.timestamp ≤ dateToTs rd := by
  unfold weightRows
  constructor
  · intro h
    obtain ⟨m2, hm2, h2⟩ := List.mem_flatMap.mp h
    obtain ⟨s, hs, h3⟩ := List.mem_filterMap.mp h2
    by_cases hc : m2.sensor_id = s.id ∧ m2.cow_id = cid ∧ m2.is_valid = true ∧
        s.unit = "kg" ∧ m2.timestamp ≤ dateToTs rd
    · rw [if_pos hc] at h3
      have hm2m : m2 = m := by simpa using h3
      subst hm2m
      exact ⟨hm2, ⟨s, hs, hc.1, hc.2.2.2.1⟩, hc.2.1, hc.2.2.1, hc.2.2.2.2⟩
    · rw [if_neg hc] at h3
      exact absurd h3 (by simp)
  · rintro ⟨hm, ⟨s, hs, hsid, hunit⟩, hcow, hvld, hts⟩
    refine List.mem_flatMap.mpr ⟨m, hm, List.mem_filterMap.mpr ⟨s, hs, ?_⟩⟩
    rw [if_pos ⟨hsid, hcow, hvld, hunit, hts⟩]

/-- The latest qualifying weight row of a cow carries a non-null value in
every state whose valid measurements carry values. -/
theorem weightRows_value_ne_none {db : DB} {rd : Int} {cid : String}
    {m : Measurement} (hv : ValidHasValue db) (h : m ∈ weightRows db rd cid) :
    m.value ≠ none := by
  have h2 := mem_weightRows.mp h
  exact hv m h2.1 h2.2.2.2.1

/-- C3: a row of the weights report flags potentially_ill exactly when its
last weight and its 30-day average are both present and the last weight is
strictly below 95 percent of the average; in every other case the flag is
false. -/
theorem potentially_ill_iff (db : DB) (report_date : Int) :
    ∀ row ∈ weights_report db report_date,
      (row.potentially_ill = true ↔
        ∃ v a, row.last_weight = some v
          ∧ row.previous_30_day_weight_avg = some a
          ∧ v < 95 / 100 * a) := by
  intro row hrow
  unfold weights_report at hrow
  obtain ⟨c, hc, hrowe⟩ := List.mem_map.mp hrow
  subst hrowe
  cases hl : latestBy Measurement.timestamp (weightRows db report_date c.id) with
  | none =>
    rw [weightRowFor_none hl]
    simp
  | some m0 =>
    rw [weightRowFor_eq_some hl]
    cases hval : m0.value with
    | none =>
      simp only [hval]
      constructor
      · intro h
        exact absurd h (by simp)
      · rintro ⟨v, a, hv2, _, _⟩
        exact absurd hv2 (by simp)
    | some v0 =>
      cases havg : sqlAvg (((weightRows db report_date c.id).filter
          (fun m => decide (m0.timestamp - 30 * secondsPerDay ≤ m.timestamp ∧
                            m.timestamp ≤ m0.timestamp))).map Measurement.value) with
      | none =>
        simp only [hval, havg]
        constructor
        · intro h
          exact absurd h (by simp)
        · rintro ⟨v, a, _, ha, _⟩
          exact absurd ha (by simp)
      | some a0 =>
        simp only [hval, havg]
        constructor
        · intro h
          have hlt : v0 < a0 * (95 / 100) := of_decide_eq_true h
          exact ⟨v0, a0, rfl, rfl, by rw [mul_comm] at hlt; exact hlt⟩
        · rintro ⟨v, a, hv2, ha, hlt⟩
          have hvv : v0 = v := by simpa using hv2
          have haa : a0 = a := by simpa using ha
          subst hvv
          subst haa
          exact decide_eq_true (by rw [mul_comm]; exact hlt)

/-- Example weight reading of 440 kg at epoch second 1000. -/
def exW1 : Measurement :=
  { id := 1, sensor_id := "sb", cow_id := "c1", timestamp := 1000
    value := some 440, is_valid := true, validation_error := none }

/-- Example weight reading of 380 kg at epoch second 2000 (the latest). -/
def exW2 : Measurement :=
  { id := 2, sensor_id := "sb", cow_id := "c1", timestamp := 2000
    value := some 380, is_valid := true, validation_error := none }

/-- A state whose weight report sees a latest weight of 380 against a 30-day
average of 410. -/
def exDBW : DB :=
  { cows := [exCow], sensors := [exSensorKg], measurements := [exW1, exW2] }

theorem potentially_ill_iff_witness :
    (weightRowFor exDBW 2 exCow).potentially_ill = true := by
  have hrep : weights_report exDBW 2 = [weightRowFor exDBW 2 exCow] := rfl
  have hmem : weightRowFor exDBW 2 exCow ∈ weights_report exDBW 2 := by
    rw [hrep]
    exact List.mem_singleton.mpr rfl
  have hl : latestBy Measurement.timestamp (weightRows exDBW 2 exCow.id) =
      some exW2 := by rfl
  have hlw : (weightRowFor exDBW 2 exCow).last_weight = some 380 := by
    rw [weightRowFor_eq_some hl]
    rfl
  have hwr : weightRows exDBW 2 exCow.id = [exW1, exW2] := rfl
  have havg : (weightRowFor exDBW 2 exCow).previous_30_day_weight_avg =
      some 410 := by
    rw [weightRowFor_eq_some hl]
    show sqlAvg (((weightRows exDBW 2 exCow.id).filter
      (fun m => decide (exW2.timestamp - 30 * secondsPerDay ≤ m.timestamp ∧
                        m.timestamp ≤ exW2.timestamp))).map Measurement.value) =
      some 410
    rw [hwr]
    norm_num [List.filter, List.filterMap, exW1, exW2, secondsPerDay, sqlAvg]
  exact (potentially_ill_iff exDBW 2 (weightRowFor exDBW 2 exCow) hmem).mpr
    ⟨380, 410, hlw, havg, by norm_num⟩

theorem weightRowFor_status_some {db : DB} {rd : Int} {c : Cow}
    {m0 : Measurement}
    (h : latestBy Measurement.timestamp (weightRows db rd c.id) = some m0)
    (hvne : m0.value ≠ none) :
    (weightRowFor db rd c).data_status =
      if m0.timestamp < dateToTs (rd - 3) then "Stale Data (>3 days)"
      else "Active" := by
  rw [weightRowFor_eq_some h]
  show (if m0.value = none then "No Data"
      else if m0.timestamp < dateToTs (rd - 3) then "Stale Data (>3 days)"
      else "Active") = _
  rw [if_neg hvne]

/-- C4: the weights report emits exactly one row per cow (its id multiset is
a permutation of the cow table's ids, so cows with no qualifying measurement
are included), rows are ordered by cow name ascending, and each row's
data_status is No Data exactly when the cow has no valid kg measurement up to
the report date, and otherwise derives from any maximal-timestamp qualifying
measurement: Stale when it is older than three days before the report date,
Active otherwise. -/
theorem weights_report_spec (db : DB) (report_date : Int)
    (hv : ValidHasValue db) :
    ((weights_report db report_date).map WeightRow.id).Perm
        (db.cows.map Cow.id)
    ∧ List.Pairwise (fun r1 r2 : WeightRow => strLeB r1.name r2.name = true)
        (weights_report db report_date)
    ∧ (∀ row ∈ weights_report db report_date, ∃ c ∈ db.cows,
        row = weightRowFor db report_date c
        ∧ (row.data_status = "No Data" ↔ weightRows db report_date c.id = [])
        ∧ (∀ m0 ∈ weightRows db report_date c.id,
            (∀ m2 ∈ weightRows db report_date c.id,
              m2.timestamp ≤ m0.timestamp) →
            row.data_status =
              if m0.timestamp < dateToTs (report_date - 3)
              then "Stale Data (>3 days)" else "Active")) := by
  refine ⟨?_, ?_, ?_⟩
  · unfold weights_report
    rw [List.map_map]
    have hfun : ∀ c ∈ List.insertionSort nameLe db.cows,
        (WeightRow.id ∘ weightRowFor db report_date) c = Cow.id c := by
      intro c _
      exact weightRowFor_id db report_date c
    rw [List.map_congr_left hfun]
    exact (List.perm_insertionSort nameLe db.cows).map Cow.id
  · unfold weights_report
    refine List.Pairwise.map _ ?_ (List.sorted_insertionSort nameLe db.cows)
    intro a b hab
    rw [weightRowFor_name, weightRowFor_name]
    exact hab
  · intro row hrow
    unfold weights_report at hrow
    obtain ⟨c, hc, hrowe⟩ := List.mem_map.mp hrow
    have hcmem : c ∈ db.cows :=
      ((List.perm_insertionSort nameLe db.cows).mem_iff).mp hc
    refine ⟨c, hcmem, hrowe.symm, ?_, ?_⟩
    · cases hl : latestBy Measurement.timestamp
          (weightRows db report_date c.id) with
      | none =>
        have hnil := latestBy_eq_none.mp hl
        rw [← hrowe, weightRowFor_none hl]
        simp [hnil]
      | some m0 =>
        have hm0 := latestBy_mem hl
        have hvne := weightRows_value_ne_none hv hm0
        rw [← hrowe, weightRowFor_status_some hl hvne]
        constructor
        · intro hds
          by_cases hts : m0.timestamp < dateToTs (report_date - 3)
          · rw [if_pos hts] at hds
            exact absurd hds (by decide)
          · rw [if_neg hts] at hds
            exact absurd hds (by decide)
        · intro hnil
          rw [hnil] at hm0
          exact absurd hm0 (by simp)
    · intro m0 hm0 hmax
      cases hl : latestBy Measurement.timestamp
          (weightRows db report_date c.id) with
      | none =>
        have hnil := latestBy_eq_none.mp hl
        rw [hnil] at hm0
        exact absurd hm0 (by simp)
      | some m1 =>
        have hm1mem := latestBy_mem hl
        have h1 : m1.timestamp ≤ m0.timestamp := hmax m1 hm1mem
        have h2 : m0.timestamp ≤ m1.timestamp := latestBy_le hl m0 hm0
        have hts : m1.timestamp = m0.timestamp := le_antisymm h1 h2
        have hvne := weightRows_value_ne_none hv hm1mem
        rw [← hrowe, weightRowFor_status_some hl hvne, hts]

theorem weights_report_spec_witness :
    ((weights_report exDBW 2).map WeightRow.id).Perm
      (exDBW.cows.map Cow.id) :=
  (weights_report_spec exDBW 2 (by decide)).1

/-! ### Milk report lemmas -/

theorem tsDay_bounds {sd ed : Int} {t : ℚ} (h1 : dateToTs sd ≤ t)
    (h2 : t ≤ dateToTs ed) : sd ≤ tsDay t ∧ tsDay t ≤ ed := by
  have hpos : (0 : ℚ) < secondsPerDay := by norm_num [secondsPerDay]
  constructor
  · rw [tsDay, Int.le_floor, le_div_iff₀ hpos]
    calc (sd : ℚ) * secondsPerDay = ((86400 * sd : Int) : ℚ) := by
          push_cast [secondsPerDay]
          ring
      _ ≤ t := h1
  · have hle : t / secondsPerDay ≤ (ed : ℚ) := by
      rw [div_le_iff₀ hpos]
      calc t ≤ ((86400 * ed : Int) : ℚ) := h2
        _ = (ed : ℚ) * secondsPerDay := by
            push_cast [secondsPerDay]
            ring
    rw [tsDay]
    calc ⌊t / secondsPerDay⌋ ≤ ⌊(ed : ℚ)⌋ := Int.floor_le_floor hle
      _ = ed := Int.floor_intCast ed

theorem milkRows_facts {db : DB} {sd ed : Int} :
    ∀ p ∈ milkRows db sd ed, p.2 ∈ db.measurements ∧ p.2.is_valid = true ∧
      dateToTs sd ≤ p.2.timestamp ∧ p.2.timestamp ≤ dateToTs ed := by
  intro p hp
  unfold milkRows at hp
  obtain ⟨c, hc, hp2⟩ := List.mem_flatMap.mp hp
  obtain ⟨m, hm, hp3⟩ := List.mem_flatMap.mp hp2
  obtain ⟨s, hs, hp4⟩ := List.mem_filterMap.mp hp3
  by_cases hcond : c.id = m.cow_id ∧ m.sensor_id = s.id ∧ m.is_valid = true ∧
      s.unit = "L" ∧ dateToTs sd ≤ m.timestamp ∧ m.timestamp ≤ dateToTs ed
  · rw [if_pos hcond] at hp4
    have hpe : (c.id, m) = p := by simpa using hp4
    rw [← hpe]
    exact ⟨hm, hcond.2.2.1, hcond.2.2.2.2.1, hcond.2.2.2.2.2⟩
  · rw [if_neg hcond] at hp4
    exact absurd hp4 (by simp)

theorem milkKey_mem_iff (db : DB) (sd ed : Int) (cid : String) (d : Int) :
    (cid, d) ∈ milkKeys db sd ed ↔ milkGroup db sd ed (cid, d) ≠ [] := by
  unfold milkKeys milkGroup
  rw [List.mem_dedup]
  constructor
  · intro h
    obtain ⟨r, hr, hkey⟩ := List.mem_map.mp h
    simp only [Prod.mk.injEq] at hkey
    have hdec : (decide (r.1 = (cid, d).1 ∧ tsDay r.2.timestamp = (cid, d).2))
        = true := by simp [hkey.1, hkey.2]
    exact List.ne_nil_of_mem (List.mem_filter.mpr ⟨hr, hdec⟩)
  · intro h
    obtain ⟨r, hr⟩ := List.exists_mem_of_ne_nil _ h
    have h2 := List.mem_filter.mp hr
    have h3 := of_decide_eq_true h2.2
    refine List.mem_map.mpr ⟨r, h2.1, ?_⟩
    simp only [Prod.mk.injEq]
    exact ⟨h3.1, h3.2⟩

theorem filter_eq_of_nodup {α : Type} [DecidableEq α] :
    ∀ (l : List α), l.Nodup → ∀ a : α,
      l.filter (fun x => decide (x = a)) = if a ∈ l then [a] else [] := by
  intro l
  induction l with
  | nil =>
    intro _ a
    simp
  | cons b bs ih =>
    intro hnd a
    rw [List.filter_cons]
    by_cases hba : b = a
    · subst hba
      have hnotmem : b ∉ bs := (List.nodup_cons.mp hnd).1
      have htail : bs.filter (fun x => decide (x = b)) = [] := by
        rw [ih (List.nodup_cons.mp hnd).2 b, if_neg hnotmem]
      rw [if_pos (by simp), htail, if_pos (List.mem_cons_self b bs)]
    · have htail := ih (List.nodup_cons.mp hnd).2 a
      rw [if_neg (by simp [hba]), htail]
      by_cases hmem : a ∈ bs
      · rw [if_pos hmem, if_pos (List.mem_cons_of_mem b hmem)]
      · rw [if_neg hmem, if_neg (by
          intro hc
          rcases List.mem_cons.mp hc with hc | hc
          · exact hba hc.symm
          · exact hmem hc)]

/-- C5, amended: every milk-report row's day lies inside the requested date
range; for every cow id and day there is exactly one report row when the cow
has at least one qualifying measurement on that day — valid, liter-unit, and
with timestamp between midnight UTC of start_date and midnight UTC of
end_date, the cutoff the query's BETWEEN on DATE parameters applies, so on
the final calendar day only a measurement at exactly its first instant
qualifies — carrying the sum of those values, and no row otherwise; and rows
are ordered by cow id descending then day descending. -/
theorem milk_report_spec (db : DB) (sd ed : Int) (hv : ValidHasValue db) :
    (∀ row ∈ milk_report db sd ed, sd ≤ row.day ∧ row.day ≤ ed)
    ∧ (∀ cid d,
        (milkGroup db sd ed (cid, d) = [] →
          (milk_report db sd ed).filter
            (fun row => decide (row.id = cid ∧ row.day = d)) = [])
        ∧ (milkGroup db sd ed (cid, d) ≠ [] →
          (milk_report db sd ed).filter
            (fun row => decide (row.id = cid ∧ row.day = d)) =
          [{ id := cid, day := d
             milk_production := some
               ((((milkGroup db sd ed (cid, d)).map
                 (fun r => r.2.value)).filterMap id).sum) }]))
    ∧ List.Pairwise
        (fun r1 r2 : MilkRow => milkKeyLe (r1.id, r1.day) (r2.id, r2.day))
        (milk_report db sd ed) := by
  refine ⟨?_, ?_, ?_⟩
  · intro row hrow
    unfold milk_report at hrow
    obtain ⟨k, hk, hke⟩ := List.mem_map.mp hrow
    have hk0 : k ∈ milkKeys db sd ed :=
      (List.perm_insertionSort milkKeyLe _).mem_iff.mp hk
    unfold milkKeys at hk0
    rw [List.mem_dedup] at hk0
    obtain ⟨r, hr, hre⟩ := List.mem_map.mp hk0
    have hf := milkRows_facts r hr
    have hb := tsDay_bounds hf.2.2.1 hf.2.2.2
    have hk2 : k.2 = tsDay r.2.timestamp := by rw [← hre]
    rw [← hke]
    constructor
    · show sd ≤ k.2
      rw [hk2]
      exact hb.1
    · show k.2 ≤ ed
      rw [hk2]
      exact hb.2
  · intro cid d
    have hkeysnd : (milkKeys db sd ed).Nodup := List.nodup_dedup _
    have hksnd : (List.insertionSort milkKeyLe (milkKeys db sd ed)).Nodup :=
      (List.perm_insertionSort milkKeyLe _).nodup_iff.mpr hkeysnd
    have hmemiff :
        ((cid, d) ∈ List.insertionSort milkKeyLe (milkKeys db sd ed)) ↔
          milkGroup db sd ed (cid, d) ≠ [] := by
      rw [(List.perm_insertionSort milkKeyLe _).mem_iff]
      exact milkKey_mem_iff db sd ed cid d
    have hfilter : (milk_report db sd ed).filter
        (fun row => decide (row.id = cid ∧ row.day = d)) =
        ((List.insertionSort milkKeyLe (milkKeys db sd ed)).filter
          (fun k => decide (k = (cid, d)))).map (fun k =>
            { id := k.1, day := k.2
              milk_production :=
                sqlSum ((milkGroup db sd ed k).map (fun r => r.2.value)) }) := by
      unfold milk_report
      rw [List.filter_map]
      congr 1
      apply List.filter_congr
      intro k _
      show decide (k.1 = cid ∧ k.2 = d) = decide (k = (cid, d))
      refine decide_eq_decide.mpr ?_
      exact (@Prod.ext_iff _ _ k (cid, d)).symm
    rw [filter_eq_of_nodup _ hksnd (cid, d)] at hfilter
    constructor
    · intro hempty
      have hnotmem : (cid, d) ∉
          List.insertionSort milkKeyLe (milkKeys db sd ed) :=
        fun hc => (hmemiff.mp hc) hempty
      rw [hfilter, if_neg hnotmem]
      rfl
    · intro hne
      have hmem := hmemiff.mpr hne
      rw [hfilter, if_pos hmem]
      have hsum : sqlSum ((milkGroup db sd ed (cid, d)).map
          (fun r => r.2.value)) =
          some ((((milkGroup db sd ed (cid, d)).map
            (fun r => r.2.value)).filterMap id).sum) := by
        unfold sqlSum
        obtain ⟨r, hr⟩ := List.exists_mem_of_ne_nil _ hne
        have hrmem : r ∈ milkRows db sd ed := (List.mem_filter.mp hr).1
        have hfacts := milkRows_facts r hrmem
        have hvne : r.2.value ≠ none := hv r.2 hfacts.1 hfacts.2.1
        cases hvo : r.2.value with
        | none => exact absurd hvo hvne
        | some v =>
          have hvmem : some v ∈ (milkGroup db sd ed (cid, d)).map
              (fun r2 => r2.2.value) := by
            rw [← hvo]
            exact List.mem_map_of_mem _ hr
          have hvin : v ∈ ((milkGroup db sd ed (cid, d)).map
              (fun r2 => r2.2.value)).filterMap id :=
            List.mem_filterMap.mpr ⟨some v, hvmem, rfl⟩
          have hne2 : ¬ (((milkGroup db sd ed (cid, d)).map
              (fun r2 => r2.2.value)).filterMap id).isEmpty = true := by
            rw [List.isEmpty_iff]
            intro hnil
            rw [hnil] at hvin
            simp at hvin
          rw [if_neg hne2]
      simp [hsum]
  · unfold milk_report
    refine List.Pairwise.map _ ?_
      (List.sorted_insertionSort milkKeyLe (milkKeys db sd ed))
    intro a b hab
    show milkKeyLe (a.1, a.2) (b.1, b.2)
    rw [Prod.mk.eta, Prod.mk.eta]
    exact hab

theorem milk_report_spec_witness :
    (milk_report exDB1 0 1).filter
      (fun row => decide (row.id = "c1" ∧ row.day = 0)) =
    [{ id := "c1", day := 0
       milk_production := some
         ((((milkGroup exDB1 0 1 ("c1", 0)).map
           (fun r => r.2.value)).filterMap id).sum) }] := by
  have hrows : milkRows exDB1 0 1 = [("c1", exM1), ("c1", exM2)] := rfl
  have hday : tsDay exM1.timestamp = 0 := by
    norm_num [tsDay, secondsPerDay, exM1]
  have hgrp : ("c1", exM1) ∈ milkGroup exDB1 0 1 ("c1", 0) := by
    unfold milkGroup
    rw [hrows]
    refine List.mem_filter.mpr ⟨by simp, ?_⟩
    simp [hday]
  exact ((milk_report_spec exDB1 0 1 (by decide)).2.1 "c1" 0).2
    (List.ne_nil_of_mem hgrp)

/-- A valid liter measurement taken at 14:00 UTC of day 0 — later than
midnight of that day. -/
def exMEnd : Measurement :=
  { id := 1, sensor_id := "sa", cow_id := "c1", timestamp := 50400
    value := some 15, is_valid := true, validation_error := none }

/-- A state with a single valid liter measurement on the final calendar day
of a report range ending on day 0. -/
def exDBE : DB :=
  { cows := [exCow], sensors := [exSensorL], measurements := [exMEnd] }

/-- C5, counterexample to the claim as stated: over the range day 0 to day 0,
the cow has a valid liter measurement whose calendar day is 0 — a day inside
the range — yet the milk report emits no row at all, because the query's
BETWEEN bound cuts at midnight of the end date (timestamp 50400 exceeds
midnight 0) and so excludes the measurement from both the row-existence
condition and the sum. -/
theorem milk_report_end_day_counterexample :
    exMEnd ∈ exDBE.measurements
    ∧ exMEnd.is_valid = true
    ∧ exMEnd.cow_id = exCow.id
    ∧ (∃ s ∈ exDBE.sensors, exMEnd.sensor_id = s.id ∧ s.unit = "L")
    ∧ tsDay exMEnd.timestamp = 0
    ∧ exCow ∈ exDBE.cows
    ∧ milk_report exDBE 0 0 = [] := by
  refine ⟨by decide, rfl, rfl, ⟨exSensorL, by decide, rfl, rfl⟩, ?_, by decide, rfl⟩
  norm_num [tsDay, secondsPerDay, exMEnd]
